import Mathlib

/-!
Verification of the shift booking and conflict-resolution logic of the
hammonia-taxi scheduling application.

The embedding models:
  * the `shifts` table rows and the half-open interval overlap test
    (PostgreSQL `OVERLAPS` on intervals whose CHECK constraint guarantees
    `end_time > start_time` is exactly `s1 < e2 AND s2 < e1`);
  * the trigger function `check_shift_overlap` from
    supabase/rpc-functions-clean.sql (taxi check first, then driver check,
    both excluding the row whose id equals `NEW.id`);
  * the table CHECK constraints `valid_shift_times` and `max_shift_duration`
    from supabase/schema.sql;
  * the RPC functions `check_taxi_availability` / `check_driver_availability`;
  * the client-side `validateShift` of the driver booking page and the admin
    shifts page (date + clock normalization with the overnight one-day roll,
    the truncating `differenceInHours` duration test, and the pre-flight
    conflict query), and the batch insert of `handleSubmit`.

Timestamps are modelled as integer seconds; ids and entity references as
naturals.  A calendar date is an integer day index (the instant of its local
midnight is `day * 86400`); a clock value is a second offset in `[0, 86400)`.
-/

namespace Hammonia

instance {ε α : Type} [DecidableEq ε] [DecidableEq α] : DecidableEq (Except ε α) := fun a b =>
  match a, b with
  | Except.ok x, Except.ok y =>
    if h : x = y then isTrue (by rw [h]) else isFalse (fun he => h (Except.ok.inj he))
  | Except.ok _, Except.error _ => isFalse (fun he => Except.noConfusion he)
  | Except.error _, Except.ok _ => isFalse (fun he => Except.noConfusion he)
  | Except.error e, Except.error f =>
    if h : e = f then isTrue (by rw [h]) else isFalse (fun he => h (Except.error.inj he))

/-- A row of the `shifts` table (schema.sql): id, driver_id, taxi_id,
start_time, end_time.  Times in seconds. -/
structure Shift where
  id : Nat
  driverId : Nat
  taxiId : Nat
  startTime : Int
  endTime : Int
deriving DecidableEq, Repr

/-- Half-open interval overlap: `(s1,e1) OVERLAPS (s2,e2)` for non-degenerate
intervals in PostgreSQL, and the client query
`start_time.lt.e1 AND end_time.gt.s1` of the admin page. -/
def overlaps (s1 e1 s2 e2 : Int) : Bool :=
  decide (s1 < e2) && decide (s2 < e1)

/-- The taxi branch of the trigger `check_shift_overlap`
(rpc-functions-clean.sql lines 193-198): an existing row with the same
taxi_id, a different id, and an overlapping interval. -/
def taxiConflictExists (db : List Shift) (new : Shift) : Bool :=
  db.any fun s =>
    s.taxiId == new.taxiId && s.id != new.id &&
      overlaps new.startTime new.endTime s.startTime s.endTime

/-- The driver branch of the trigger `check_shift_overlap`
(rpc-functions-clean.sql lines 203-208). -/
def driverConflictExists (db : List Shift) (new : Shift) : Bool :=
  db.any fun s =>
    s.driverId == new.driverId && s.id != new.id &&
      overlaps new.startTime new.endTime s.startTime s.endTime

/-- Errors surfaced by a shift write: the two trigger exceptions
(`Taxi is already booked...`, `Driver already has a shift...`), a CHECK
constraint violation, and a primary-key violation. -/
inductive DbError where
  | TaxiBooked
  | DriverBooked
  | CheckViolation
  | DuplicateId
deriving DecidableEq, Repr

/-- The BEFORE INSERT OR UPDATE trigger function `check_shift_overlap`
(rpc-functions-clean.sql lines 189-214): raise the taxi exception first,
then the driver exception, else pass the row through. -/
def check_shift_overlap (db : List Shift) (new : Shift) : Except DbError Unit :=
  if taxiConflictExists db new then Except.error DbError.TaxiBooked
  else if driverConflictExists db new then Except.error DbError.DriverBooked
  else Except.ok ()

/-- CHECK constraint `valid_shift_times` (schema.sql line 42):
`end_time > start_time`. -/
def valid_shift_times (s e : Int) : Bool :=
  decide (e > s)

/-- CHECK constraint `max_shift_duration` (schema.sql lines 45-47):
`EXTRACT(EPOCH FROM (end_time - start_time)) <= 36000`. -/
def max_shift_duration (s e : Int) : Bool :=
  decide (e - s ≤ 36000)

/-- Both table CHECK constraints of the `shifts` table. -/
def shiftChecksOk (sh : Shift) : Bool :=
  valid_shift_times sh.startTime sh.endTime &&
    max_shift_duration sh.startTime sh.endTime

/-- Committing an INSERT of one row: the BEFORE trigger runs, then the
primary key and the CHECK constraints; the row is added only if all pass. -/
def insertShift (db : List Shift) (new : Shift) : Except DbError (List Shift) :=
  match check_shift_overlap db new with
  | Except.error e => Except.error e
  | Except.ok () =>
    if db.any fun s => s.id == new.id then Except.error DbError.DuplicateId
    else if shiftChecksOk new then Except.ok (new :: db)
    else Except.error DbError.CheckViolation

/-- Committing an UPDATE of the row whose id is `new.id` (the admin page
updates driver_id, taxi_id, start_time, end_time in place; the id is kept).
The trigger sees the current table and excludes the row with `NEW.id`. -/
def updateShift (db : List Shift) (new : Shift) : Except DbError (List Shift) :=
  match check_shift_overlap db new with
  | Except.error e => Except.error e
  | Except.ok () =>
    if shiftChecksOk new then
      Except.ok (db.map fun s => if s.id == new.id then new else s)
    else Except.error DbError.CheckViolation

/-- RPC `check_driver_availability` (rpc-functions-clean.sql lines 138-155):
true when no shift of the driver, other than the optionally excluded one,
overlaps the probed window. -/
def check_driver_availability (db : List Shift) (driverId : Nat)
    (s e : Int) (excl : Option Nat) : Bool :=
  !(db.any fun sh =>
    sh.driverId == driverId &&
      (match excl with
       | none => true
       | some i => sh.id != i) &&
      overlaps s e sh.startTime sh.endTime)

/-- RPC `check_taxi_availability` (rpc-functions-clean.sql lines 158-175). -/
def check_taxi_availability (db : List Shift) (taxiId : Nat)
    (s e : Int) (excl : Option Nat) : Bool :=
  !(db.any fun sh =>
    sh.taxiId == taxiId &&
      (match excl with
       | none => true
       | some i => sh.id != i) &&
      overlaps s e sh.startTime sh.endTime)

/-- The pre-flight conflict query of the admin shifts page (page.tsx lines
161-166): shifts with the candidate taxi, id different from the edited
shift (none excluded on create), `start_time < shiftEnd` and
`end_time > shiftStart`. -/
def adminTaxiConflicts (db : List Shift) (taxiId : Nat)
    (excludeId : Option Nat) (s e : Int) : List Shift :=
  db.filter fun sh =>
    sh.taxiId == taxiId &&
      (match excludeId with
       | none => true
       | some i => sh.id != i) &&
      decide (sh.startTime < e) && decide (sh.endTime > s)

/-- date-fns `differenceInHours later earlier`: the signed number of whole
hours between the instants (default rounding truncates toward zero; all
uses here have a non-negative difference, where truncation is flooring). -/
def differenceInHours (laterT earlierT : Int) : Int :=
  (laterT - earlierT) / 3600

/-- The date/clock combination of the booking pages: `shiftStart` is the
selected day at the start clock, `shiftEnd` the same day at the end clock,
and when `shiftEnd <= shiftStart` the end rolls forward by one calendar day
(part_000 lines 144-153, admin page lines 143-151). -/
def normalizeInterval (day startClock endClock : Int) : Int × Int :=
  let s := day * 86400 + startClock
  let e := day * 86400 + endClock
  if e ≤ s then (s, e + 86400) else (s, e)

/-- Client-side rejection reasons: the validation messages of the booking
pages ("Please fill in all required fields", `shifts.maxDuration`,
`shifts.conflictError`), plus the defensive invalid-interval reason named
by the specification. -/
inductive ValidationError where
  | MissingField
  | InvalidInterval
  | DurationExceeded
  | ConflictError
deriving DecidableEq, Repr

/-- `validateShift` of the driver booking page (part_000 lines 138-169):
require taxi, date and both clocks; normalize; reject when the truncated
hour count exceeds 10; reject when the pre-flight taxi-conflict list
(state `conflicts` filled by `checkConflicts`) is non-empty. -/
def validateShift (selectedTaxi : Option Nat) (selectedDate : Option Int)
    (startClock endClock : Option Int) (conflicts : List Int) :
    Option ValidationError :=
  match selectedTaxi, selectedDate, startClock, endClock with
  | some _, some day, some sc, some ec =>
    let p := normalizeInterval day sc ec
    if differenceInHours p.2 p.1 > 10 then some ValidationError.DurationExceeded
    else if conflicts ≠ [] then some ValidationError.ConflictError
    else none
  | _, _, _, _ => some ValidationError.MissingField

/-- `validateShift` of the admin shifts page (page.tsx lines 137-175):
require driver, taxi, date and both clocks; normalize; duration test; then
the synchronous taxi-conflict query (excluding the id of the edited shift). -/
def adminValidateShift (driverId taxiId : Option Nat)
    (selectedDate startClock endClock : Option Int)
    (db : List Shift) (excludeId : Option Nat) : Option ValidationError :=
  match driverId, taxiId, selectedDate, startClock, endClock with
  | some _, some taxi, some day, some sc, some ec =>
    let p := normalizeInterval day sc ec
    if differenceInHours p.2 p.1 > 10 then some ValidationError.DurationExceeded
    else if adminTaxiConflicts db taxi excludeId p.1 p.2 ≠ [] then
      some ValidationError.ConflictError
    else none
  | _, _, _, _, _ => some ValidationError.MissingField

/-- The rows of a multi-row `INSERT INTO shifts` processed in statement
order: the BEFORE trigger and constraints of each row see the rows already
inserted by the same statement; the first failure aborts the statement. -/
def insertBatchAux (db : List Shift) : List Shift → Except DbError (List Shift)
  | [] => Except.ok db
  | r :: rs =>
    match insertShift db r with
    | Except.error e => Except.error e
    | Except.ok db2 => insertBatchAux db2 rs

/-- The single batch insert issued by `handleSubmit` of the driver booking
page (part_000 line 201): one statement, so an aborted statement leaves the
table unchanged and surfaces the error. -/
def handleSubmitInsert (db : List Shift) (rows : List Shift) :
    List Shift × Option DbError :=
  match insertBatchAux db rows with
  | Except.ok db2 => (db2, none)
  | Except.error e => (db, some e)

/-- True when the write failed. -/
def isError (r : Except DbError (List Shift)) : Bool :=
  match r with
  | Except.error _ => true
  | Except.ok _ => false

/-- First applicable reason of an ordered list of (applies?, reason)
pairs; used to phrase check orders taken from the words of the specification. -/
def firstApplicable {α : Type} : List (Bool × α) → Option α
  | [] => none
  | (b, e) :: rest => if b then some e else firstApplicable rest

/-- Modelled from the words of the amended claim: the client check order of the
driver booking page is missing required fields, then duration exceeded,
then the pre-flight taxi-conflict list; the first applicable reason only. -/
def clientOrderSpec (selectedTaxi : Option Nat) (selectedDate : Option Int)
    (startClock endClock : Option Int) (conflicts : List Int) :
    Option ValidationError :=
  match selectedTaxi, selectedDate, startClock, endClock with
  | some _, some day, some sc, some ec =>
    firstApplicable
      [(decide (differenceInHours (normalizeInterval day sc ec).2
          (normalizeInterval day sc ec).1 > 10), ValidationError.DurationExceeded),
       (decide (conflicts ≠ []), ValidationError.ConflictError)]
  | _, _, _, _ => some ValidationError.MissingField

/-- Modelled from the words of the amended claim: the commit-time guard checks
the taxi conflict first, then the driver conflict; the first applicable
exception only. -/
def commitOrderSpec (db : List Shift) (new : Shift) : Except DbError Unit :=
  match firstApplicable
      [(taxiConflictExists db new, DbError.TaxiBooked),
       (driverConflictExists db new, DbError.DriverBooked)] with
  | some e => Except.error e
  | none => Except.ok ()

/-- Two rows are compatible when they are distinct rows and do not overlap
on a shared taxi or a shared driver. -/
def Compat (a b : Shift) : Prop :=
  a.id ≠ b.id ∧
    (a.taxiId = b.taxiId →
      overlaps a.startTime a.endTime b.startTime b.endTime = false) ∧
    (a.driverId = b.driverId →
      overlaps a.startTime a.endTime b.startTime b.endTime = false)

instance : DecidableRel Compat := fun a b => by
  unfold Compat
  infer_instance

/-- The conflict-index invariant of the committed store: pairwise
compatibility (distinct ids; no taxi overlap; no driver overlap). -/
def Invariant (db : List Shift) : Prop :=
  db.Pairwise Compat

instance (db : List Shift) : Decidable (Invariant db) := by
  unfold Invariant
  infer_instance

/-! ### Helper lemmas -/

theorem overlaps_comm (s1 e1 s2 e2 : Int) :
    overlaps s1 e1 s2 e2 = overlaps s2 e2 s1 e1 := by
  unfold overlaps
  exact Bool.and_comm _ _

theorem taxiConflictExists_false (db : List Shift) (new : Shift)
    (h : taxiConflictExists db new = false) :
    ∀ s ∈ db, s.taxiId = new.taxiId → s.id ≠ new.id →
      overlaps new.startTime new.endTime s.startTime s.endTime = false := by
  intro s hs htaxi hid
  unfold taxiConflictExists at h
  rw [List.any_eq_false] at h
  have hp := h s hs
  simp only [Bool.and_eq_true, beq_iff_eq, bne_iff_ne, not_and, Bool.not_eq_true] at hp
  exact hp ⟨htaxi, hid⟩

theorem driverConflictExists_false (db : List Shift) (new : Shift)
    (h : driverConflictExists db new = false) :
    ∀ s ∈ db, s.driverId = new.driverId → s.id ≠ new.id →
      overlaps new.startTime new.endTime s.startTime s.endTime = false := by
  intro s hs hdrv hid
  unfold driverConflictExists at h
  rw [List.any_eq_false] at h
  have hp := h s hs
  simp only [Bool.and_eq_true, beq_iff_eq, bne_iff_ne, not_and, Bool.not_eq_true] at hp
  exact hp ⟨hdrv, hid⟩

theorem check_shift_overlap_ok (db : List Shift) (new : Shift)
    (h : check_shift_overlap db new = Except.ok ()) :
    taxiConflictExists db new = false ∧ driverConflictExists db new = false := by
  unfold check_shift_overlap at h
  split_ifs at h with h1 h2
  · exact ⟨by simpa using h1, by simpa using h2⟩

theorem taxiConflictExists_true_of (db : List Shift) (cand s : Shift)
    (hs : s ∈ db) (htaxi : s.taxiId = cand.taxiId) (hid : s.id ≠ cand.id)
    (hov : overlaps cand.startTime cand.endTime s.startTime s.endTime = true) :
    taxiConflictExists db cand = true := by
  unfold taxiConflictExists
  rw [List.any_eq_true]
  exact ⟨s, hs, by simp [htaxi, hid, hov]⟩

theorem driverConflictExists_true_of (db : List Shift) (cand s : Shift)
    (hs : s ∈ db) (hdrv : s.driverId = cand.driverId) (hid : s.id ≠ cand.id)
    (hov : overlaps cand.startTime cand.endTime s.startTime s.endTime = true) :
    driverConflictExists db cand = true := by
  unfold driverConflictExists
  rw [List.any_eq_true]
  exact ⟨s, hs, by simp [hdrv, hid, hov]⟩

theorem insertShift_ok (db db2 : List Shift) (new : Shift)
    (h : insertShift db new = Except.ok db2) : db2 = new :: db := by
  unfold insertShift at h
  cases hc : check_shift_overlap db new with
  | error e => rw [hc] at h; exact absurd h (by simp)
  | ok u =>
    cases u
    rw [hc] at h
    split_ifs at h with h1 h2
    · exact (Except.ok.inj h).symm

theorem insertShift_nil (sh : Shift) :
    insertShift [] sh =
      if shiftChecksOk sh then Except.ok [sh]
      else Except.error DbError.CheckViolation := by
  simp [insertShift, check_shift_overlap, taxiConflictExists, driverConflictExists]

theorem normalizeInterval_eq (day sc ec : Int) :
    normalizeInterval day sc ec =
      if day * 86400 + ec ≤ day * 86400 + sc then
        (day * 86400 + sc, day * 86400 + ec + 86400)
      else (day * 86400 + sc, day * 86400 + ec) := rfl

/-! ### Claim theorems -/

/-- C2: half-open boundary.  When shift `a` ends exactly at the instant
where shift `b` starts, the overlap test is false in both directions, the
commit-time trigger accepts either one next to the other, the availability
RPCs report no conflict, and the admin pre-flight query returns no rows —
whatever the taxi and driver ids (in particular when they coincide). -/
theorem half_open_boundary (a b : Shift) (h : a.endTime = b.startTime) :
    overlaps a.startTime a.endTime b.startTime b.endTime = false ∧
    overlaps b.startTime b.endTime a.startTime a.endTime = false ∧
    check_shift_overlap [a] b = Except.ok () ∧
    check_shift_overlap [b] a = Except.ok () ∧
    check_taxi_availability [a] b.taxiId b.startTime b.endTime none = true ∧
    check_driver_availability [a] b.driverId b.startTime b.endTime none = true ∧
    adminTaxiConflicts [a] b.taxiId none b.startTime b.endTime = [] := by
  have hov1 : overlaps a.startTime a.endTime b.startTime b.endTime = false := by
    simp [overlaps, h]
  have hov2 : overlaps b.startTime b.endTime a.startTime a.endTime = false := by
    simp [overlaps, h]
  refine ⟨hov1, hov2, ?_, ?_, ?_, ?_, ?_⟩
  · simp [check_shift_overlap, taxiConflictExists, driverConflictExists, hov2]
  · simp [check_shift_overlap, taxiConflictExists, driverConflictExists, hov1]
  · simp [check_taxi_availability, hov2]
  · simp [check_driver_availability, hov2]
  · simp [adminTaxiConflicts, List.filter_eq_nil_iff, h]

/-- Witness for C2 at a concrete pair: a shift ending at 36000 and one
starting at 36000, same taxi and same driver. -/
theorem half_open_boundary_witness :
    check_shift_overlap [⟨1, 10, 20, 0, 36000⟩] ⟨2, 10, 20, 36000, 72000⟩ =
      Except.ok () ∧
    check_taxi_availability [⟨1, 10, 20, 0, 36000⟩] 20 36000 72000 none = true := by
  have h := half_open_boundary ⟨1, 10, 20, 0, 36000⟩ ⟨2, 10, 20, 36000, 72000⟩ rfl
  exact ⟨h.2.2.1, h.2.2.2.2.1⟩

/-- C3: duration bound.  For any start instant, a candidate of exactly
36000 seconds (10h) passes the client duration test, satisfies the
`max_shift_duration` CHECK, and commits; a candidate of 36001 seconds
(10h0m1s) still passes the client test (date-fns `differenceInHours`
truncates to 10), but violates the CHECK constraint, so the insert is
rejected — the duration bound is enforced at the database layer. -/
theorem duration_bound (st : Int) (i d t : Nat) :
    differenceInHours (st + 36000) st ≤ 10 ∧
    max_shift_duration st (st + 36000) = true ∧
    insertShift [] ⟨i, d, t, st, st + 36000⟩ =
      Except.ok [⟨i, d, t, st, st + 36000⟩] ∧
    differenceInHours (st + 36001) st ≤ 10 ∧
    max_shift_duration st (st + 36001) = false ∧
    insertShift [] ⟨i, d, t, st, st + 36001⟩ =
      Except.error DbError.CheckViolation := by
  have hok : shiftChecksOk ⟨i, d, t, st, st + 36000⟩ = true := by
    simp only [shiftChecksOk, valid_shift_times, max_shift_duration,
      Bool.and_eq_true, decide_eq_true_eq]
    omega
  have hbad : shiftChecksOk ⟨i, d, t, st, st + 36001⟩ = false := by
    simp only [shiftChecksOk, valid_shift_times, max_shift_duration,
      Bool.and_eq_false_iff, decide_eq_false_iff_not]
    right; omega
  refine ⟨?_, ?_, ?_, ?_, ?_, ?_⟩
  · unfold differenceInHours; omega
  · unfold max_shift_duration; simp only [decide_eq_true_eq]; omega
  · rw [insertShift_nil, hok]; simp
  · unfold differenceInHours; omega
  · unfold max_shift_duration; simp only [decide_eq_false_iff_not]; omega
  · rw [insertShift_nil, hbad]; simp

/-- C5: overnight normalization.  For clock values inside one day the
normalized end is strictly after the start (the step cannot fail), and the
concrete 22:00 to 06:00 example normalizes to the next day at 06:00 with a
duration of 8 hours and is accepted by the client validation. -/
theorem overnight_normalization (day sc ec : Int) (tx : Nat)
    (hsc1 : 0 ≤ sc) (hsc2 : sc < 86400) (hec1 : 0 ≤ ec) (hec2 : ec < 86400) :
    (normalizeInterval day sc ec).2 > (normalizeInterval day sc ec).1 ∧
    (normalizeInterval day 79200 21600).1 = day * 86400 + 79200 ∧
    (normalizeInterval day 79200 21600).2 = (day + 1) * 86400 + 21600 ∧
    (normalizeInterval day 79200 21600).2 - (normalizeInterval day 79200 21600).1
      = 8 * 3600 ∧
    validateShift (some tx) (some day) (some 79200) (some 21600) [] = none := by
  have hnorm : normalizeInterval day 79200 21600 =
      (day * 86400 + 79200, day * 86400 + 21600 + 86400) := by
    rw [normalizeInterval_eq, if_pos (by omega)]
  refine ⟨?_, ?_, ?_, ?_, ?_⟩
  · rw [normalizeInterval_eq]
    split_ifs with h
    · simp only; omega
    · simp only; omega
  · rw [hnorm]
  · rw [hnorm]; simp only; ring
  · rw [hnorm]; simp only; ring
  · simp only [validateShift, hnorm]
    rw [if_neg (by unfold differenceInHours; omega)]
    simp

/-- Witness for C5 at day 0, start 22:00, end 06:00, taxi 1. -/
theorem overnight_normalization_witness :
    (normalizeInterval 0 79200 21600).2 > (normalizeInterval 0 79200 21600).1 ∧
    (normalizeInterval 0 79200 21600).2 = 1 * 86400 + 21600 ∧
    validateShift (some 1) (some 0) (some 79200) (some 21600) [] = none := by
  have h := overnight_normalization 0 79200 21600 1
    (by norm_num) (by norm_num) (by norm_num) (by norm_num)
  exact ⟨h.1, h.2.2.1, h.2.2.2.2⟩

/-- C10: normalized candidates always satisfy `end_time > start_time`, so the
`valid_shift_times` CHECK constraint (and any defensive invalid-interval
rejection) is unreachable from the booking flows; when the start and end
clocks are equal, normalization yields a 24-hour interval, whose truncated
hour count is 24, and the client validation rejects it with the duration
error — not as an invalid interval — whatever the pre-flight conflicts. -/
theorem invalid_interval_unreachable (day sc ec : Int) (tx : Nat)
    (confl : List Int)
    (hsc1 : 0 ≤ sc) (hsc2 : sc < 86400) (hec1 : 0 ≤ ec) (hec2 : ec < 86400) :
    valid_shift_times (normalizeInterval day sc ec).1
      (normalizeInterval day sc ec).2 = true ∧
    (sc = ec →
      (normalizeInterval day sc ec).2 - (normalizeInterval day sc ec).1 = 86400 ∧
      differenceInHours (normalizeInterval day sc ec).2
        (normalizeInterval day sc ec).1 = 24 ∧
      validateShift (some tx) (some day) (some sc) (some ec) confl =
        some ValidationError.DurationExceeded) := by
  constructor
  · rw [normalizeInterval_eq]
    split_ifs with h
    · simp only [valid_shift_times, decide_eq_true_eq]; omega
    · simp only [valid_shift_times, decide_eq_true_eq]; omega
  · intro he
    subst he
    have hnorm : normalizeInterval day sc sc =
        (day * 86400 + sc, day * 86400 + sc + 86400) := by
      rw [normalizeInterval_eq, if_pos (by omega)]
    refine ⟨by rw [hnorm]; simp only; ring, by rw [hnorm]; unfold differenceInHours; simp only; omega, ?_⟩
    simp only [validateShift, hnorm]
    rw [if_pos (by unfold differenceInHours; omega)]

/-- Witness for C10 at day 0, both clocks 01:00, a non-empty conflict list. -/
theorem invalid_interval_unreachable_witness :
    valid_shift_times (normalizeInterval 0 3600 3600).1
      (normalizeInterval 0 3600 3600).2 = true ∧
    (normalizeInterval 0 3600 3600).2 - (normalizeInterval 0 3600 3600).1 = 86400 ∧
    validateShift (some 1) (some 0) (some 3600) (some 3600) [5] =
      some ValidationError.DurationExceeded := by
  have h := invalid_interval_unreachable 0 3600 3600 1 [5]
    (by norm_num) (by norm_num) (by norm_num) (by norm_num)
  exact ⟨h.1, (h.2 rfl).1, (h.2 rfl).2.2⟩

/-- C4 counterexample: the committed store holds shift 1 (driver 10, taxi 20,
interval 0 to 36000) and shift 2 (driver 11, taxi 21, same interval).  The
candidate (driver 10, taxi 21, 1800 to 37800) overlaps the committed
shift of driver 10 on a different taxi, yet the insert is rejected with the taxi-booked
error, because the candidate also overlaps the shift of taxi 21 and the trigger
raises the taxi exception first — not `DriverBooked` as the claim states. -/
theorem double_booking_counterexample :
    driverConflictExists
        [⟨1, 10, 20, 0, 36000⟩, ⟨2, 11, 21, 0, 36000⟩]
        ⟨3, 10, 21, 1800, 37800⟩ = true ∧
    (⟨1, 10, 20, 0, 36000⟩ : Shift).taxiId ≠ (⟨3, 10, 21, 1800, 37800⟩ : Shift).taxiId ∧
    insertShift [⟨1, 10, 20, 0, 36000⟩, ⟨2, 11, 21, 0, 36000⟩]
        ⟨3, 10, 21, 1800, 37800⟩ = Except.error DbError.TaxiBooked ∧
    Except.error (α := List Shift) DbError.TaxiBooked ≠
      Except.error DbError.DriverBooked := by
  decide

/-- C4 amended: a candidate whose driver already has an overlapping
committed shift is rejected, and the error is `DriverBooked` whenever the
taxi of the candidate has no overlapping committed shift (in particular when the
conflicting shift of the driver is on a different taxi and that taxi
is otherwise free); a taxi conflict, when also present, takes precedence. -/
theorem double_booking_rejected (db : List Shift) (cand s : Shift)
    (hs : s ∈ db) (hdrv : s.driverId = cand.driverId) (hid : s.id ≠ cand.id)
    (hov : overlaps cand.startTime cand.endTime s.startTime s.endTime = true)
    (hnotaxi : taxiConflictExists db cand = false) :
    insertShift db cand = Except.error DbError.DriverBooked := by
  have hd : driverConflictExists db cand = true :=
    driverConflictExists_true_of db cand s hs hdrv hid hov
  unfold insertShift check_shift_overlap
  rw [hnotaxi, hd]
  simp

/-- Witness for C4 as amended, mirroring the scenario of the specification:
driver 10 holds 09:00 to 13:00 on taxi 20; the candidate books driver 10 on
taxi 21 from 10:00 to 14:00 the same day and is rejected as driver-booked. -/
theorem double_booking_rejected_witness :
    insertShift [⟨1, 10, 20, 32400, 46800⟩] ⟨2, 10, 21, 36000, 50400⟩ =
      Except.error DbError.DriverBooked :=
  double_booking_rejected [⟨1, 10, 20, 32400, 46800⟩] ⟨2, 10, 21, 36000, 50400⟩
    ⟨1, 10, 20, 32400, 46800⟩ (by decide) (by decide) (by decide) (by decide)
    (by decide)

/-- C6: self-exclusion on edit.  Let S be a stored shift and `new` its
edited version (same id).  If no OTHER stored shift conflicts with the new
window, then the availability RPCs called with `p_exclude_shift_id = S.id`,
the commit-time trigger (which excludes the row with `NEW.id`), and the
pre-flight query of the admin page (which excludes the edited id) all report no
conflict — even though S itself is in the store and its own old interval may
overlap the new one. -/
theorem self_exclusion_on_edit (db : List Shift) (S new : Shift)
    (hS : S ∈ db) (hid : new.id = S.id)
    (hothers : ∀ s ∈ db, s.id ≠ S.id →
      (s.taxiId = new.taxiId →
        overlaps new.startTime new.endTime s.startTime s.endTime = false) ∧
      (s.driverId = new.driverId →
        overlaps new.startTime new.endTime s.startTime s.endTime = false)) :
    check_driver_availability db new.driverId new.startTime new.endTime
      (some S.id) = true ∧
    check_taxi_availability db new.taxiId new.startTime new.endTime
      (some S.id) = true ∧
    check_shift_overlap db new = Except.ok () ∧
    adminTaxiConflicts db new.taxiId (some S.id) new.startTime new.endTime
      = [] := by
  have hov_of : ∀ s ∈ db, s.id ≠ S.id →
      (s.taxiId = new.taxiId ∨ s.driverId = new.driverId) →
      overlaps new.startTime new.endTime s.startTime s.endTime = false := by
    intro s hs hsid hsh
    rcases hsh with h | h
    · exact (hothers s hs hsid).1 h
    · exact (hothers s hs hsid).2 h
  refine ⟨?_, ?_, ?_, ?_⟩
  · unfold check_driver_availability
    rw [Bool.not_eq_true', List.any_eq_false]
    intro s hs
    by_cases hsid : s.id = S.id
    · simp [hsid]
    · by_cases hdrv : s.driverId = new.driverId
      · simp [hdrv, hsid, hov_of s hs hsid (Or.inr hdrv)]
      · simp [hdrv]
  · unfold check_taxi_availability
    rw [Bool.not_eq_true', List.any_eq_false]
    intro s hs
    by_cases hsid : s.id = S.id
    · simp [hsid]
    · by_cases htx : s.taxiId = new.taxiId
      · simp [htx, hsid, hov_of s hs hsid (Or.inl htx)]
      · simp [htx]
  · have ht : taxiConflictExists db new = false := by
      unfold taxiConflictExists
      rw [List.any_eq_false]
      intro s hs
      by_cases hsid : s.id = new.id
      · simp [hsid]
      · by_cases htx : s.taxiId = new.taxiId
        · simp [htx, hsid, hov_of s hs (by rw [hid] at hsid; exact hsid) (Or.inl htx)]
        · simp [htx]
    have hd : driverConflictExists db new = false := by
      unfold driverConflictExists
      rw [List.any_eq_false]
      intro s hs
      by_cases hsid : s.id = new.id
      · simp [hsid]
      · by_cases hdrv : s.driverId = new.driverId
        · simp [hdrv, hsid, hov_of s hs (by rw [hid] at hsid; exact hsid) (Or.inr hdrv)]
        · simp [hdrv]
    unfold check_shift_overlap
    rw [ht, hd]
    simp
  · unfold adminTaxiConflicts
    rw [List.filter_eq_nil_iff]
    intro s hs
    by_cases hsid : s.id = S.id
    · simp [hsid]
    · by_cases htx : s.taxiId = new.taxiId
      · have hov := hov_of s hs hsid (Or.inl htx)
        simp only [overlaps, Bool.and_eq_false_iff, decide_eq_false_iff_not] at hov
        intro hcontra
        simp only [Bool.and_eq_true, decide_eq_true_eq] at hcontra
        rcases hov with h | h
        · exact h hcontra.2
        · exact h hcontra.1.2
      · simp [htx]

/-- Witness for C6: the store holds only S (id 7, driver 10, taxi 20,
0 to 36000); editing it to 1800 to 37800 — overlapping its own old
interval — passes every conflict check when id 7 is excluded. -/
theorem self_exclusion_on_edit_witness :
    check_driver_availability [⟨7, 10, 20, 0, 36000⟩] 10 1800 37800 (some 7)
      = true ∧
    check_taxi_availability [⟨7, 10, 20, 0, 36000⟩] 20 1800 37800 (some 7)
      = true ∧
    check_shift_overlap [⟨7, 10, 20, 0, 36000⟩] ⟨7, 10, 20, 1800, 37800⟩
      = Except.ok () ∧
    adminTaxiConflicts [⟨7, 10, 20, 0, 36000⟩] 20 (some 7) 1800 37800 = [] :=
  self_exclusion_on_edit [⟨7, 10, 20, 0, 36000⟩] ⟨7, 10, 20, 0, 36000⟩
    ⟨7, 10, 20, 1800, 37800⟩ (by decide) rfl
    (by
      intro s hs hsid
      have hseq : s = ⟨7, 10, 20, 0, 36000⟩ := by simpa using hs
      rw [hseq] at hsid
      exact absurd rfl hsid)

/-- C7 counterexample: the store holds shift 1 (driver 10, taxi 20,
0 to 36000); the candidate (driver 10, taxi 20, 1800 to 37800) conflicts on
BOTH the driver and the taxi, and the commit-time guard reports the TAXI
conflict — the claimed priority (driver conflict checked before taxi
conflict) would report the driver conflict. -/
theorem rejection_order_counterexample :
    taxiConflictExists [⟨1, 10, 20, 0, 36000⟩] ⟨2, 10, 20, 1800, 37800⟩ = true ∧
    driverConflictExists [⟨1, 10, 20, 0, 36000⟩] ⟨2, 10, 20, 1800, 37800⟩ = true ∧
    check_shift_overlap [⟨1, 10, 20, 0, 36000⟩] ⟨2, 10, 20, 1800, 37800⟩ =
      Except.error DbError.TaxiBooked ∧
    DbError.TaxiBooked ≠ DbError.DriverBooked := by
  decide

/-- C7 amended: `validateShift` of the driver booking page reports the first
applicable of: missing required fields, then duration exceeded, then the
pre-flight taxi-conflict list (there is no separate invalid-interval check:
normalization removes that case), and the commit-time guard reports the
first applicable of: taxi conflict, then driver conflict.  Stated as a
refinement against order evaluators written from those words. -/
theorem rejection_order (tx : Option Nat) (day sc ec : Option Int)
    (confl : List Int) (db : List Shift) (cand : Shift) :
    validateShift tx day sc ec confl = clientOrderSpec tx day sc ec confl ∧
    check_shift_overlap db cand = commitOrderSpec db cand := by
  constructor
  · rcases tx with _ | tx <;> rcases day with _ | day <;>
      rcases sc with _ | sc <;> rcases ec with _ | ec <;>
      simp only [validateShift, clientOrderSpec, firstApplicable, decide_eq_true_eq]
  · simp only [check_shift_overlap, commitOrderSpec, firstApplicable]
    split_ifs <;> rfl

theorem insertShift_taxiBooked_iff (db : List Shift) (r : Shift) :
    insertShift db r = Except.error DbError.TaxiBooked ↔
      taxiConflictExists db r = true := by
  unfold insertShift check_shift_overlap
  by_cases ht : taxiConflictExists db r <;>
    by_cases hd : driverConflictExists db r <;>
      simp [ht, hd] <;> split_ifs <;> simp

theorem insertShift_driverBooked_iff (db : List Shift) (r : Shift) :
    insertShift db r = Except.error DbError.DriverBooked ↔
      (taxiConflictExists db r = false ∧ driverConflictExists db r = true) := by
  unfold insertShift check_shift_overlap
  by_cases ht : taxiConflictExists db r <;>
    by_cases hd : driverConflictExists db r <;>
      simp [ht, hd] <;> split_ifs <;> simp

theorem insert_error_of_conflict (db : List Shift) (r s : Shift)
    (hs : s ∈ db) (hid : s.id ≠ r.id)
    (hshare : r.taxiId = s.taxiId ∨ r.driverId = s.driverId)
    (hov : overlaps r.startTime r.endTime s.startTime s.endTime = true) :
    isError (insertShift db r) = true := by
  by_cases ht : taxiConflictExists db r = true
  · unfold insertShift check_shift_overlap
    rw [ht]
    rfl
  · have htx : r.taxiId ≠ s.taxiId := by
      intro he
      exact ht (taxiConflictExists_true_of db r s hs he.symm hid hov)
    have hdrv : r.driverId = s.driverId := by
      rcases hshare with h | h
      · exact absurd h htx
      · exact h
    have hd : driverConflictExists db r = true :=
      driverConflictExists_true_of db r s hs hdrv.symm hid hov
    unfold insertShift check_shift_overlap
    rw [Bool.not_eq_true] at ht
    rw [ht, hd]
    rfl

/-- C8: batch atomicity.  If any row of a multi-row insert (the single
statement issued by `handleSubmit` for a multi-day booking) conflicts with a
committed shift on its taxi or its driver, the whole statement fails and the
store is left unchanged; moreover the single-row commit error distinguishes
the cases: it is `TaxiBooked` exactly when the taxi of the row has an overlapping
committed shift, and `DriverBooked` exactly when the taxi is free but the
driver has one. -/
theorem batch_insert_atomic (db rows : List Shift) (r s : Shift)
    (hr : r ∈ rows) (hs : s ∈ db) (hid : s.id ≠ r.id)
    (hshare : r.taxiId = s.taxiId ∨ r.driverId = s.driverId)
    (hov : overlaps r.startTime r.endTime s.startTime s.endTime = true) :
    isError (insertBatchAux db rows) = true ∧
    (handleSubmitInsert db rows).1 = db ∧
    (insertShift db r = Except.error DbError.TaxiBooked ↔
      taxiConflictExists db r = true) ∧
    (insertShift db r = Except.error DbError.DriverBooked ↔
      (taxiConflictExists db r = false ∧ driverConflictExists db r = true)) := by
  have herr : isError (insertBatchAux db rows) = true := by
    induction rows generalizing db with
    | nil => cases hr
    | cons a rs ih =>
      rcases List.mem_cons.mp hr with rfl | hmem
      · have := insert_error_of_conflict db r s hs hid hshare hov
        unfold insertBatchAux
        cases hins : insertShift db r with
        | error e => rfl
        | ok db2 => rw [hins] at this; exact absurd this (by simp [isError])
      · unfold insertBatchAux
        cases hins : insertShift db a with
        | error e => rfl
        | ok db2 =>
          have hdb2 : db2 = a :: db := insertShift_ok db db2 a hins
          exact ih db2 hmem (by rw [hdb2]; exact List.mem_cons_of_mem a hs)
  refine ⟨herr, ?_, insertShift_taxiBooked_iff db r,
    insertShift_driverBooked_iff db r⟩
  unfold handleSubmitInsert
  cases hb : insertBatchAux db rows with
  | error e => rfl
  | ok db2 => rw [hb] at herr; exact absurd herr (by simp [isError])

/-- Witness for C8: the store holds shift 1 on taxi 20; a two-row batch
whose second row overlaps taxi 20 fails as a whole and the store stays as
it was. -/
theorem batch_insert_atomic_witness :
    isError (insertBatchAux [⟨1, 10, 20, 0, 36000⟩]
      [⟨2, 11, 21, 100000, 136000⟩, ⟨3, 12, 20, 1800, 37800⟩]) = true ∧
    (handleSubmitInsert [⟨1, 10, 20, 0, 36000⟩]
      [⟨2, 11, 21, 100000, 136000⟩, ⟨3, 12, 20, 1800, 37800⟩]).1 =
      [⟨1, 10, 20, 0, 36000⟩] := by
  have h := batch_insert_atomic [⟨1, 10, 20, 0, 36000⟩]
    [⟨2, 11, 21, 100000, 136000⟩, ⟨3, 12, 20, 1800, 37800⟩]
    ⟨3, 12, 20, 1800, 37800⟩ ⟨1, 10, 20, 0, 36000⟩
    (by decide) (by decide) (by decide) (Or.inl rfl) (by decide)
  exact ⟨h.1, h.2.1⟩

/-- C1: conflict-index invariant.  A store that holds no two rows with the
same taxi, nor two rows with the same driver, whose half-open intervals
overlap (and whose ids are distinct) keeps that property across every
successful insert and every successful update, because the commit runs the
`check_shift_overlap` trigger against the committed set (excluding the row
being updated) in the same step as the write. -/
theorem commit_preserves_invariant (db db2 : List Shift) (new : Shift)
    (hInv : Invariant db)
    (h : insertShift db new = Except.ok db2 ∨
         updateShift db new = Except.ok db2) :
    Invariant db2 := by
  rcases h with h | h
  · have hc : check_shift_overlap db new = Except.ok () := by
      unfold insertShift at h
      cases hc : check_shift_overlap db new with
      | error e => rw [hc] at h; exact absurd h (by simp)
      | ok u => cases u; rfl
    obtain ⟨ht, hd⟩ := check_shift_overlap_ok db new hc
    have hdup : (db.any fun s => s.id == new.id) = false := by
      unfold insertShift at h
      rw [hc] at h
      by_cases hdup : (db.any fun s => s.id == new.id) = true
      · rw [if_pos hdup] at h; exact absurd h (by simp)
      · exact Bool.not_eq_true _ |>.mp hdup
    have hdb2 : db2 = new :: db := insertShift_ok db db2 new h
    subst hdb2
    refine List.Pairwise.cons ?_ hInv
    intro s hs
    have hsid : s.id ≠ new.id := by
      rw [List.any_eq_false] at hdup
      have hpd := hdup s hs
      simpa using hpd
    refine ⟨fun he => hsid he.symm, ?_, ?_⟩
    · intro htx
      exact taxiConflictExists_false db new ht s hs htx.symm hsid
    · intro hdr
      exact driverConflictExists_false db new hd s hs hdr.symm hsid
  · have hc : check_shift_overlap db new = Except.ok () := by
      unfold updateShift at h
      cases hc : check_shift_overlap db new with
      | error e => rw [hc] at h; exact absurd h (by simp)
      | ok u => cases u; rfl
    obtain ⟨ht, hd⟩ := check_shift_overlap_ok db new hc
    have hdb2 : db2 = db.map fun s => if s.id == new.id then new else s := by
      unfold updateShift at h
      rw [hc] at h
      split_ifs at h with h1
      · exact (Except.ok.inj h).symm
    subst hdb2
    rw [Invariant, List.pairwise_map]
    refine hInv.imp_of_mem ?_
    intro a b ha hb hab
    by_cases hA : a.id = new.id <;> by_cases hB : b.id = new.id
    · exact absurd (hA.trans hB.symm) hab.1
    · have hfa : (if a.id == new.id then new else a) = new := by simp [hA]
      have hfb : (if b.id == new.id then new else b) = b := by simp [hB]
      rw [hfa, hfb]
      refine ⟨fun he => hB he.symm, ?_, ?_⟩
      · intro htx
        exact taxiConflictExists_false db new ht b hb htx.symm hB
      · intro hdr
        exact driverConflictExists_false db new hd b hb hdr.symm hB
    · have hfa : (if a.id == new.id then new else a) = a := by simp [hA]
      have hfb : (if b.id == new.id then new else b) = new := by simp [hB]
      rw [hfa, hfb]
      refine ⟨hA, ?_, ?_⟩
      · intro htx
        rw [overlaps_comm]
        exact taxiConflictExists_false db new ht a ha htx hA
      · intro hdr
        rw [overlaps_comm]
        exact driverConflictExists_false db new hd a ha hdr hA
    · have hfa : (if a.id == new.id then new else a) = a := by simp [hA]
      have hfb : (if b.id == new.id then new else b) = b := by simp [hB]
      rw [hfa, hfb]
      exact hab

/-- Witness for C1: a compatible store accepts a new non-conflicting shift
by insert, and the grown store still satisfies the invariant. -/
theorem commit_preserves_invariant_witness :
    Invariant [⟨1, 10, 20, 0, 36000⟩] ∧
    insertShift [⟨1, 10, 20, 0, 36000⟩] ⟨2, 11, 21, 100000, 136000⟩ =
      Except.ok [⟨2, 11, 21, 100000, 136000⟩, ⟨1, 10, 20, 0, 36000⟩] ∧
    Invariant [⟨2, 11, 21, 100000, 136000⟩, ⟨1, 10, 20, 0, 36000⟩] := by
  refine ⟨by decide, by decide, ?_⟩
  exact commit_preserves_invariant [⟨1, 10, 20, 0, 36000⟩]
    [⟨2, 11, 21, 100000, 136000⟩, ⟨1, 10, 20, 0, 36000⟩]
    ⟨2, 11, 21, 100000, 136000⟩ (by decide) (Or.inl (by decide))

end Hammonia
